import Mathlib

/-!
Verification of the wsnet2 game-server core against its specification.

The development shallowly embeds the relevant parts of the Go sources:

* the event wire codec from the binary package (event framing,
  marshalling and unmarshalling, from the file defining EvType,
  RegularEvent, SystemEvent and UnmarshalEvent);
* the per-client ring of outbound events and the peer write path
  (server/game/peer.go, Peer.SendEvents);
* the room actor state machine (server/game/room.go): membership maps,
  master election order, property merging and event dispatch.

Go maps with string keys are embedded as association lists; byte slices
as lists of naturals below 256; uint32 arithmetic is modular where the
source can wrap.  Every handler follows the order of operations of the
corresponding Go function.
-/

namespace WSNet2

/-! ## Wire codec: event frames (binary package)

The helpers put32 and get32 are modelled from the spec: integers are
big-endian, a regular event carries a 4-byte big-endian sequence number
(the function bodies are not under src, only their callers are).
-/

/-- Modelled from the spec: put32 writes a 32bit big-endian integer
(the binary package helper is not under src). -/
def put32 (n : Nat) : List Nat :=
  [n / 2 ^ 24 % 256, n / 2 ^ 16 % 256, n / 2 ^ 8 % 256, n % 256]

/-- Modelled from the spec: get32 reads a 32bit big-endian integer from
the first four bytes (the binary package helper is not under src). -/
def get32 (data : List Nat) : Nat :=
  match data with
  | a :: b :: c :: d :: _ => ((a * 256 + b) * 256 + c) * 256 + d
  | _ => 0

/-- EvType wire value: first regular event type. -/
def regularEvType : Nat := 30

/-- EvType wire value: first response event type. -/
def responseEvType : Nat := 128

def EvTypePeerReady : Nat := 1
def EvTypePong : Nat := 2
def EvTypeJoined : Nat := regularEvType
def EvTypeLeft : Nat := regularEvType + 1
def EvTypeRoomProp : Nat := regularEvType + 2
def EvTypeClientProp : Nat := regularEvType + 3
def EvTypeMasterSwitched : Nat := regularEvType + 4
def EvTypeMessage : Nat := regularEvType + 5
def EvTypeSucceeded : Nat := responseEvType
def EvTypePermissionDenied : Nat := responseEvType + 1
def EvTypeTargetNotFound : Nat := responseEvType + 2

/-- The defined EvType wire values (PeerReady, Pong, the six regular
types from 30, the three response types from 128). -/
def definedEvType (b : Nat) : Bool :=
  b == EvTypePeerReady || b == EvTypePong ||
  (EvTypeJoined ≤ b && b ≤ EvTypeMessage) ||
  (EvTypeSucceeded ≤ b && b ≤ EvTypeTargetNotFound)

/-- Regular event: a type byte (at least 30) and a payload. -/
structure RegularEvent where
  etype : Nat
  payload : List Nat
deriving Repr, DecidableEq

/-- System event (no sequence number): a type byte below 30 and a payload. -/
structure SystemEvent where
  etype : Nat
  payload : List Nat
deriving Repr, DecidableEq

/-- Result of UnmarshalEvent: either kind of event. -/
inductive Event where
  | regular (ev : RegularEvent)
  | system (ev : SystemEvent)
deriving Repr, DecidableEq

/-- RegularEvent.Marshal: one type byte, 4-byte big-endian sequence
number, then the payload. -/
def RegularEvent.Marshal (ev : RegularEvent) (seqNum : Nat) : List Nat :=
  ev.etype % 256 :: (put32 seqNum ++ ev.payload)

/-- SystemEvent.Marshal: one type byte then the payload. -/
def SystemEvent.Marshal (ev : SystemEvent) : List Nat :=
  ev.etype % 256 :: ev.payload

/-- UnmarshalEvent: a first byte below 30 yields a system event with
sequence number 0; otherwise four more bytes of sequence number are
required and the rest is the payload of a regular event. -/
def UnmarshalEvent (data : List Nat) : Except String (Event × Nat) :=
  match data with
  | [] => Except.error "data length not enough"
  | et :: rest =>
    if et < regularEvType then
      Except.ok (Event.system ⟨et, rest⟩, 0)
    else if rest.length < 4 then
      Except.error "data length not enough"
    else
      Except.ok (Event.regular ⟨et, rest.drop 4⟩, get32 rest)

theorem length_put32 (n : Nat) : (put32 n).length = 4 := rfl

theorem get32_put32_append (n : Nat) (h : n < 2 ^ 32) (rest : List Nat) :
    get32 (put32 n ++ rest) = n := by
  simp only [put32, get32, List.cons_append, List.nil_append]
  omega

theorem drop4_put32_append (n : Nat) (rest : List Nat) :
    (put32 n ++ rest).drop 4 = rest := rfl

/-- C2: round trip of the event codec.  A regular event (type at least
30) marshalled with a 32-bit sequence number unmarshals to the same
event and sequence number; a system event (type below 30) unmarshals to
the same event with sequence number 0. -/
theorem event_marshal_roundtrip :
    (∀ (ev : RegularEvent) (seqNum : Nat),
      regularEvType ≤ ev.etype → ev.etype < 256 → seqNum < 2 ^ 32 →
      UnmarshalEvent (ev.Marshal seqNum) = Except.ok (Event.regular ev, seqNum)) ∧
    (∀ ev : SystemEvent,
      ev.etype < regularEvType →
      UnmarshalEvent (ev.Marshal) = Except.ok (Event.system ev, 0)) := by
  constructor
  · intro ev seqNum hge hlt hseq
    have hmod : ev.etype % 256 = ev.etype := Nat.mod_eq_of_lt hlt
    simp only [RegularEvent.Marshal, UnmarshalEvent, hmod]
    rw [if_neg (by omega), if_neg (by simp [length_put32])]
    rw [get32_put32_append seqNum hseq, drop4_put32_append]
  · intro ev hlt
    have h256 : ev.etype < 256 := by
      unfold regularEvType at hlt; omega
    have hmod : ev.etype % 256 = ev.etype := Nat.mod_eq_of_lt h256
    simp only [SystemEvent.Marshal, UnmarshalEvent, hmod]
    rw [if_pos hlt]

/-- Witness for C2 at concrete events. -/
theorem event_marshal_roundtrip_witness :
    UnmarshalEvent ((RegularEvent.mk 30 [7, 8]).Marshal 5)
      = Except.ok (Event.regular ⟨30, [7, 8]⟩, 5) ∧
    UnmarshalEvent ((SystemEvent.mk 1 [9]).Marshal)
      = Except.ok (Event.system ⟨1, [9]⟩, 0) :=
  ⟨event_marshal_roundtrip.1 ⟨30, [7, 8]⟩ 5 (by decide) (by decide) (by decide),
   event_marshal_roundtrip.2 ⟨1, [9]⟩ (by decide)⟩

/-- C3 counterexample: the first byte 3 is not a defined EvType wire
value, yet UnmarshalEvent accepts the input as a system event instead
of returning an error. -/
theorem unmarshal_unknown_type_accepted :
    definedEvType 3 = false ∧
    UnmarshalEvent [3] = Except.ok (Event.system ⟨3, []⟩, 0) := by
  constructor
  · decide
  · rfl

/-- C3 amended: UnmarshalEvent returns an error exactly when the input
is too short (empty, or a first byte of 30 or more followed by fewer
than four bytes); every first byte value is otherwise accepted, defined
or not. -/
theorem unmarshal_error_iff_short (data : List Nat) :
    (∃ e, UnmarshalEvent data = Except.error e) ↔
      (data = [] ∨ (regularEvType ≤ data.headD 0 ∧ data.length < 5)) := by
  match data with
  | [] => simp [UnmarshalEvent]
  | et :: rest =>
    simp only [UnmarshalEvent, List.headD_cons, List.length_cons, regularEvType] at *
    by_cases h1 : et < 30
    · rw [if_pos h1]
      simp only [reduceCtorEq, exists_false, false_iff, false_or]
      omega
    · rw [if_neg h1]
      by_cases h2 : rest.length < 4
      · rw [if_pos h2]
        constructor
        · intro _; omega
        · intro _; exact ⟨_, rfl⟩
      · rw [if_neg h2]
        simp only [reduceCtorEq, exists_false, false_iff, false_or]
        omega

/-! ## Event buffer and peer write path (server/game/peer.go)

The ring of outbound regular events lives in the common package, which
is not under src; its Read operation is modelled from the spec.  The
peer is embedded as the fields of Peer that SendEvents touches (closed,
evSeqNum), with the socket as an oracle telling which event writes
succeed, and the performed writes collected in a list.
-/

/-- Modelled from the spec: the event buffer is a ring of regular
events with contiguous strictly increasing sequence numbers; firstSeq
is the sequence number of the oldest buffered event and events lists
the buffered events in sequence order. -/
structure EvRingBuf where
  firstSeq : Nat
  events : List RegularEvent
deriving Repr, DecidableEq

/-- Modelled from the spec: Read(fromSeq) returns the events with
sequence number above fromSeq in order, and fails with TooOld when
fromSeq+1 is below the first buffered sequence number (common.RingBuf
is not under src). -/
def EvRingBuf.Read (b : EvRingBuf) (fromSeq : Nat) : Except String (List RegularEvent) :=
  if fromSeq + 1 < b.firstSeq then
    Except.error "too old"
  else
    Except.ok (b.events.drop (fromSeq + 1 - b.firstSeq))

/-- WebSocket close code GoingAway. -/
def closeGoingAway : Nat := 1001

/-- WebSocket close code InternalServerErr. -/
def closeInternalServerErr : Nat := 1011

/-- The part of the Peer state read and written by SendEvents. -/
structure PeerState where
  closed : Bool
  evSeqNum : Nat
deriving Repr, DecidableEq

/-- One call to writeMessage on the peer socket: a marshalled event
frame or a close frame with its code. -/
inductive SockWrite where
  | event (bytes : List Nat)
  | closeFrame (code : Nat)
deriving Repr, DecidableEq

/-- The write loop of SendEvents: marshal each event with the next
sequence number and attempt the socket write; on the first failing
write, write a close frame with InternalServerErr and stop.  Returns
the last assigned sequence number, the performed writes, and whether
every event write succeeded. -/
def sendEventsLoop (sock : Nat → Bool) (i : Nat) (seqNum : Nat) :
    List RegularEvent → Nat × List SockWrite × Bool
  | [] => (seqNum, [], true)
  | ev :: rest =>
    let w := SockWrite.event (ev.Marshal (seqNum + 1))
    if sock i then
      let r := sendEventsLoop sock (i + 1) (seqNum + 1) rest
      (r.1, w :: r.2.1, r.2.2)
    else
      (seqNum + 1, [w, SockWrite.closeFrame closeInternalServerErr], false)

/-- Peer.SendEvents: nothing happens on a closed peer; a too-old read
closes the socket with GoingAway and returns the error; otherwise the
pending events are written in order, a write failure closes the socket
with InternalServerErr leaving evSeqNum unchanged and returns no error,
and on full success evSeqNum advances past the written events. -/
def Peer.SendEvents (p : PeerState) (evbuf : EvRingBuf) (sock : Nat → Bool) :
    PeerState × List SockWrite × Option String :=
  if p.closed then
    (p, [], none)
  else
    match evbuf.Read p.evSeqNum with
    | Except.error e =>
      ({ p with closed := true }, [SockWrite.closeFrame closeGoingAway], some e)
    | Except.ok evs =>
      let r := sendEventsLoop sock 0 p.evSeqNum evs
      if r.2.2 then
        ({ p with evSeqNum := r.1 }, r.2.1, none)
      else
        ({ p with closed := true }, r.2.1, none)

/-- The writes of a fully successful send: each event marshalled with
the successive sequence numbers above base. -/
def marshalFrom (base : Nat) : List RegularEvent → List SockWrite
  | [] => []
  | ev :: rest => SockWrite.event (ev.Marshal (base + 1)) :: marshalFrom (base + 1) rest

theorem sendEventsLoop_all_ok (sock : Nat → Bool) (evs : List RegularEvent) :
    ∀ i seqNum, (∀ j, sock j = true) →
      sendEventsLoop sock i seqNum evs = (seqNum + evs.length, marshalFrom seqNum evs, true) := by
  induction evs with
  | nil => intro i seqNum _; simp [sendEventsLoop, marshalFrom]
  | cons ev rest ih =>
    intro i seqNum hall
    simp only [sendEventsLoop, marshalFrom, hall i, if_true, ih (i + 1) (seqNum + 1) hall]
    simp [List.length_cons]
    omega

theorem sendEventsLoop_fail_mem (sock : Nat → Bool) (evs : List RegularEvent) :
    ∀ i seqNum, (∃ j, j < evs.length ∧ sock (i + j) = false) →
      (sendEventsLoop sock i seqNum evs).2.2 = false ∧
      SockWrite.closeFrame closeInternalServerErr ∈ (sendEventsLoop sock i seqNum evs).2.1 := by
  induction evs with
  | nil =>
    intro i seqNum h
    obtain ⟨j, hj, _⟩ := h
    simp at hj
  | cons ev rest ih =>
    intro i seqNum h
    by_cases h0 : sock i = true
    · have hrest : ∃ j, j < rest.length ∧ sock (i + 1 + j) = false := by
        obtain ⟨j, hj, hf⟩ := h
        match j with
        | 0 => rw [Nat.add_zero] at hf; rw [h0] at hf; exact absurd hf (by simp)
        | j + 1 =>
          refine ⟨j, ?_, ?_⟩
          · simpa [Nat.lt_succ_iff, Nat.succ_le_iff] using hj
          · have : i + 1 + j = i + (j + 1) := by omega
            rw [this]; exact hf
      have := ih (i + 1) (seqNum + 1) hrest
      simp only [sendEventsLoop, h0, if_true]
      exact ⟨this.1, List.mem_cons_of_mem _ this.2⟩
    · simp only [Bool.not_eq_true] at h0
      simp [sendEventsLoop, h0]

/-- C8: Peer.SendEvents returns an error exactly when the (open) peer
has fallen behind the ring, in which case the socket is closed with
GoingAway; a write failure closes the peer with InternalServerErr,
keeps evSeqNum, and returns no error; when every write succeeds the
events from evSeqNum+1 are written in order and evSeqNum advances by
their number. -/
theorem peer_sendEvents_spec (p : PeerState) (evbuf : EvRingBuf) (sock : Nat → Bool) :
    ((Peer.SendEvents p evbuf sock).2.2.isSome ↔
      (p.closed = false ∧ p.evSeqNum + 1 < evbuf.firstSeq)) ∧
    (p.closed = false → p.evSeqNum + 1 < evbuf.firstSeq →
      Peer.SendEvents p evbuf sock =
        ({ p with closed := true }, [SockWrite.closeFrame closeGoingAway], some "too old")) ∧
    (p.closed = false → evbuf.firstSeq ≤ p.evSeqNum + 1 → (∀ j, sock j = true) →
      Peer.SendEvents p evbuf sock =
        ({ p with evSeqNum :=
             p.evSeqNum + (evbuf.events.drop (p.evSeqNum + 1 - evbuf.firstSeq)).length },
         marshalFrom p.evSeqNum (evbuf.events.drop (p.evSeqNum + 1 - evbuf.firstSeq)),
         none)) ∧
    (p.closed = false → evbuf.firstSeq ≤ p.evSeqNum + 1 →
      (∃ j, j < (evbuf.events.drop (p.evSeqNum + 1 - evbuf.firstSeq)).length ∧ sock j = false) →
      (Peer.SendEvents p evbuf sock).1 = { p with closed := true } ∧
      (Peer.SendEvents p evbuf sock).2.2 = none ∧
      SockWrite.closeFrame closeInternalServerErr ∈ (Peer.SendEvents p evbuf sock).2.1) := by
  refine ⟨?_, ?_, ?_, ?_⟩
  · by_cases hc : p.closed
    · simp [Peer.SendEvents, hc]
    · simp only [Bool.not_eq_true] at hc
      by_cases hold : p.evSeqNum + 1 < evbuf.firstSeq
      · simp [Peer.SendEvents, hc, EvRingBuf.Read, hold]
      · have hread : evbuf.Read p.evSeqNum =
            Except.ok (evbuf.events.drop (p.evSeqNum + 1 - evbuf.firstSeq)) := by
          simp [EvRingBuf.Read, hold]
        simp only [Peer.SendEvents, hc, Bool.false_eq_true, if_false, hread]
        constructor
        · intro h
          by_cases hok : (sendEventsLoop sock 0 p.evSeqNum
              (evbuf.events.drop (p.evSeqNum + 1 - evbuf.firstSeq))).2.2 <;>
            simp [hok] at h
        · intro h
          exact absurd h.2 hold
  · intro hc hold
    simp [Peer.SendEvents, hc, EvRingBuf.Read, hold]
  · intro hc hge hall
    have hloop := sendEventsLoop_all_ok sock
      (evbuf.events.drop (p.evSeqNum + 1 - evbuf.firstSeq)) 0 p.evSeqNum hall
    simp [Peer.SendEvents, hc, EvRingBuf.Read, Nat.not_lt.mpr hge, hloop]
  · intro hc hge hex
    have hex0 : ∃ j, j < (evbuf.events.drop (p.evSeqNum + 1 - evbuf.firstSeq)).length ∧
        sock (0 + j) = false := by
      simpa using hex
    have hloop := sendEventsLoop_fail_mem sock
      (evbuf.events.drop (p.evSeqNum + 1 - evbuf.firstSeq)) 0 p.evSeqNum hex0
    simp [Peer.SendEvents, hc, EvRingBuf.Read, Nat.not_lt.mpr hge, hloop.1]
    exact hloop.2

/-- Witness for C8: a two-event buffer sent over a healthy socket, and
a too-old reconnect closed with GoingAway. -/
theorem peer_sendEvents_spec_witness :
    (Peer.SendEvents ⟨false, 4⟩ ⟨3, [⟨30, [1]⟩, ⟨31, [2]⟩, ⟨32, []⟩]⟩ (fun _ => true) =
      (⟨false, 5⟩, [SockWrite.event ((RegularEvent.mk 32 []).Marshal 5)], none)) ∧
    (Peer.SendEvents ⟨false, 1⟩ ⟨3, [⟨30, [1]⟩]⟩ (fun _ => true) =
      (⟨true, 1⟩, [SockWrite.closeFrame closeGoingAway], some "too old")) := by
  constructor
  · have h := (peer_sendEvents_spec ⟨false, 4⟩ ⟨3, [⟨30, [1]⟩, ⟨31, [2]⟩, ⟨32, []⟩]⟩
      (fun _ => true)).2.2.1 rfl (by decide) (fun j => rfl)
    rw [h]; decide
  · have h := (peer_sendEvents_spec ⟨false, 1⟩ ⟨3, [⟨30, [1]⟩]⟩
      (fun _ => true)).2.1 rfl (by decide)
    rw [h]

/-! ## Association lists

Go maps with string keys (players, watchers, props dicts, lastMsg) are
embedded as association lists with unique keys: alookup is map access,
ainsert is assignment (replacing the entry when the key exists,
appending otherwise), aerase is delete (first occurrence).
-/

/-- Map access: value of the first entry with the given key. -/
def alookup {α : Type} (k : String) : List (String × α) → Option α
  | [] => none
  | (k1, v1) :: rest => if k = k1 then some v1 else alookup k rest

/-- Map assignment: replace the first entry with the key, or append. -/
def ainsert {α : Type} (k : String) (v : α) : List (String × α) → List (String × α)
  | [] => [(k, v)]
  | (k1, v1) :: rest =>
    if k = k1 then (k, v) :: rest else (k1, v1) :: ainsert k v rest

/-- Map delete: remove the first entry with the key. -/
def aerase {α : Type} (k : String) : List (String × α) → List (String × α)
  | [] => []
  | (k1, v1) :: rest => if k = k1 then rest else (k1, v1) :: aerase k rest

/-- Remove the first occurrence of an element from a list of ids
(the masterOrder filtering loop breaks after the first hit). -/
def lerase (k : String) : List String → List String
  | [] => []
  | x :: rest => if x = k then rest else x :: lerase k rest

/-- The keys of an association list. -/
def akeys {α : Type} (l : List (String × α)) : List String := l.map Prod.fst

theorem alookup_ainsert_self {α : Type} (k : String) (v : α) (l : List (String × α)) :
    alookup k (ainsert k v l) = some v := by
  induction l with
  | nil => simp [ainsert, alookup]
  | cons p rest ih =>
    obtain ⟨k1, v1⟩ := p
    by_cases h : k = k1 <;> simp [ainsert, alookup, h, ih]

theorem alookup_ainsert_ne {α : Type} (k k2 : String) (v : α) (l : List (String × α))
    (h : k ≠ k2) : alookup k (ainsert k2 v l) = alookup k l := by
  induction l with
  | nil => simp [ainsert, alookup, h]
  | cons p rest ih =>
    obtain ⟨k1, v1⟩ := p
    by_cases h2 : k2 = k1
    · subst h2; simp [ainsert, alookup, h, if_neg h]
    · by_cases h1 : k = k1 <;> simp [ainsert, alookup, h1, h2, ih]

theorem alookup_aerase_ne {α : Type} (k k2 : String) (l : List (String × α))
    (h : k ≠ k2) : alookup k (aerase k2 l) = alookup k l := by
  induction l with
  | nil => simp [aerase]
  | cons p rest ih =>
    obtain ⟨k1, v1⟩ := p
    by_cases h2 : k2 = k1
    · subst h2; simp [aerase, alookup, if_neg h]
    · by_cases h1 : k = k1 <;> simp [aerase, alookup, h1, h2, ih]

theorem alookup_eq_none_of_not_mem {α : Type} (k : String) (l : List (String × α))
    (h : k ∉ akeys l) : alookup k l = none := by
  induction l with
  | nil => rfl
  | cons p rest ih =>
    obtain ⟨k1, v1⟩ := p
    simp only [akeys, List.map_cons, List.mem_cons] at h
    push_neg at h
    simp only [alookup, if_neg h.1]
    exact ih (by simpa [akeys] using h.2)

theorem alookup_aerase_self {α : Type} (k : String) (l : List (String × α))
    (h : (akeys l).Nodup) : alookup k (aerase k l) = none := by
  induction l with
  | nil => rfl
  | cons p rest ih =>
    obtain ⟨k1, v1⟩ := p
    simp only [akeys, List.map_cons, List.nodup_cons] at h
    by_cases h1 : k = k1
    · subst h1
      simp only [aerase, if_pos rfl]
      exact alookup_eq_none_of_not_mem k rest (by simpa [akeys] using h.1)
    · simp only [aerase, if_neg h1, alookup, if_neg h1]
      exact ih h.2

theorem aerase_sublist {α : Type} (k : String) (l : List (String × α)) :
    (aerase k l).Sublist l := by
  induction l with
  | nil => simp [aerase]
  | cons p rest ih =>
    obtain ⟨k1, v1⟩ := p
    by_cases h : k = k1
    · simp [aerase, h]
    · simpa [aerase, h] using ih.cons₂ (k1, v1)

theorem alookup_isSome_iff_mem {α : Type} (k : String) (l : List (String × α)) :
    (alookup k l).isSome ↔ k ∈ akeys l := by
  induction l with
  | nil => simp [alookup, akeys]
  | cons p rest ih =>
    obtain ⟨k1, v1⟩ := p
    by_cases h : k = k1 <;> simp [alookup, akeys, h, ih]

theorem length_ainsert {α : Type} (k : String) (v : α) (l : List (String × α)) :
    (ainsert k v l).length =
      if (alookup k l).isSome then l.length else l.length + 1 := by
  induction l with
  | nil => simp [ainsert, alookup]
  | cons p rest ih =>
    obtain ⟨k1, v1⟩ := p
    by_cases h : k = k1
    · simp [ainsert, alookup, h]
    · simp only [ainsert, if_neg h, alookup, List.length_cons, ih]
      by_cases h2 : (alookup k rest).isSome <;> simp [h2]

theorem akeys_ainsert_present {α : Type} (k : String) (v : α) (l : List (String × α))
    (h : (alookup k l).isSome) : akeys (ainsert k v l) = akeys l := by
  induction l with
  | nil => simp [alookup] at h
  | cons p rest ih =>
    obtain ⟨k1, v1⟩ := p
    by_cases h1 : k = k1
    · simp [ainsert, akeys, h1]
    · simp only [alookup, if_neg h1] at h
      have h2 := ih h
      simp only [akeys] at h2
      simp [ainsert, akeys, h1, h2]

theorem mem_akeys_ainsert_iff {α : Type} (x k : String) (v : α) (l : List (String × α)) :
    x ∈ akeys (ainsert k v l) ↔ x = k ∨ x ∈ akeys l := by
  induction l with
  | nil => simp [ainsert, akeys]
  | cons p rest ih =>
    obtain ⟨k1, v1⟩ := p
    by_cases h : k = k1
    · subst h; simp [ainsert, akeys]
    · simp only [ainsert, if_neg h, akeys, List.map_cons, List.mem_cons] at *
      constructor
      · rintro (h1 | h1)
        · exact Or.inr (Or.inl h1)
        · rcases ih.1 h1 with h2 | h2
          · exact Or.inl h2
          · exact Or.inr (Or.inr h2)
      · rintro (h1 | h1 | h1)
        · exact Or.inr (ih.2 (Or.inl h1))
        · exact Or.inl h1
        · exact Or.inr (ih.2 (Or.inr h1))

theorem nodup_akeys_ainsert {α : Type} (k : String) (v : α) (l : List (String × α))
    (h : (akeys l).Nodup) : (akeys (ainsert k v l)).Nodup := by
  by_cases hp : (alookup k l).isSome
  · rw [akeys_ainsert_present k v l hp]; exact h
  · have hnm : k ∉ akeys l := fun hm => hp ((alookup_isSome_iff_mem k l).2 hm)
    induction l with
    | nil => simp [ainsert, akeys]
    | cons p rest ih =>
      obtain ⟨k1, v1⟩ := p
      simp only [akeys, List.map_cons, List.nodup_cons] at h
      simp only [akeys, List.map_cons, List.mem_cons] at hnm
      push_neg at hnm
      have hp2 : ¬(alookup k rest).isSome := by
        simp only [alookup, if_neg hnm.1] at hp
        exact hp
      simp only [ainsert, if_neg hnm.1, akeys, List.map_cons, List.nodup_cons]
      refine ⟨?_, ih h.2 hp2 (by simpa [akeys] using hnm.2)⟩
      intro hm
      rcases (mem_akeys_ainsert_iff k1 k v rest).1 (by simpa [akeys] using hm) with h1 | h1
      · exact hnm.1 h1.symm
      · exact h.1 (by simpa [akeys] using h1)

theorem akeys_aerase_sublist {α : Type} (k : String) (l : List (String × α)) :
    (akeys (aerase k l)).Sublist (akeys l) :=
  (aerase_sublist k l).map Prod.fst

theorem nodup_akeys_aerase {α : Type} (k : String) (l : List (String × α))
    (h : (akeys l).Nodup) : (akeys (aerase k l)).Nodup :=
  (akeys_aerase_sublist k l).nodup h

theorem mem_akeys_aerase_ne {α : Type} (x k : String) (l : List (String × α))
    (hm : x ∈ akeys l) (hne : x ≠ k) : x ∈ akeys (aerase k l) := by
  induction l with
  | nil => simp [akeys] at hm
  | cons p rest ih =>
    obtain ⟨k1, v1⟩ := p
    simp only [akeys, List.map_cons, List.mem_cons] at hm
    by_cases h1 : k = k1
    · subst h1
      rcases hm with h2 | h2
      · exact absurd h2 hne
      · simpa [aerase, akeys] using h2
    · rcases hm with h2 | h2
      · simp [aerase, h1, akeys, h2]
      · simp only [aerase, if_neg h1, akeys, List.map_cons, List.mem_cons]
        exact Or.inr (ih h2)

theorem mem_akeys_aerase_elim {α : Type} (x k : String) (l : List (String × α))
    (hnd : (akeys l).Nodup) (hm : x ∈ akeys (aerase k l)) : x ∈ akeys l ∧ x ≠ k := by
  refine ⟨(akeys_aerase_sublist k l).mem hm, ?_⟩
  rintro rfl
  have := alookup_aerase_self x l hnd
  have hs := (alookup_isSome_iff_mem x (aerase x l)).2 hm
  rw [this] at hs
  exact absurd hs (by simp)

theorem length_aerase_le {α : Type} (k : String) (l : List (String × α)) :
    (aerase k l).length ≤ l.length :=
  (aerase_sublist k l).length_le

/-! ## Room actor (server/game/room.go)

The room state is the fields of Room that the dispatch handlers touch.
Clients are identified by their id; the players map carries each
player's props dict (the part of Client that msgClientProp mutates),
the watchers map carries each watcher's nodeCount.  lastMsg maps player
ids to the unix-millisecond timestamp of their last inbound message
(the source stores it as marshalled ULong bytes).  Replies on the typed
message reply channels, sends to single clients, broadcasts and
updateRoomInfo notifications are collected as outputs in program order.
RoomInfo.Watchers is a uint32 in the source, so its arithmetic is
modulo 2 to the 32.
-/

/-- A decoded props dict: insertion-ordered map from keys to raw
typed-value bytes. -/
abbrev Dict : Type := List (String × List Nat)

/-- Regular events at the level of the binary.New* constructors. -/
inductive Ev where
  | joined (cid : String) (props : Dict)
  | rejoined (cid : String) (props : Dict)
  | left (cid : String) (masterId : String)
  | roomPropEv (payload : List Nat)
  | clientProp (cid : String) (payload : List Nat)
  | masterSwitched (newMasterId : String)
  | message (cid : String) (body : List Nat)
  | succeeded (msgSeq : Nat)
  | permissionDenied (msgSeq : Nat) (payload : List Nat)
  | targetNotFound (msgSeq : Nat) (cliIds : List String) (payload : List Nat)
deriving Repr, DecidableEq

/-- System events sent to one client outside the event buffer. -/
inductive SysEv where
  | pong (timestamp : Nat) (watchers : Nat) (lastMsg : List (String × Nat))
deriving Repr, DecidableEq

/-- gRPC error codes used by the room handlers. -/
inductive ErrCode where
  | invalidArgument
  | failedPrecondition
  | alreadyExists
  | resourceExhausted
deriving Repr, DecidableEq

/-- Observable actions of a dispatch handler, in program order. -/
inductive Output where
  | sendTo (target : String) (ev : Ev)
  | sendSystem (target : String) (ev : SysEv)
  | broadcastEv (ev : Ev)
  | updateRoomInfo
  | joinedReply (cid : String) (masterId : String)
  | errReply (code : ErrCode)
  | removedClient (cid : String) (cause : String)
  | newDeadline (cid : String) (deadlineSec : Nat)
  | getRoomInfoReply (masterId : String)
  | adminKickReply (found : Bool)
deriving Repr, DecidableEq

/-- Payload of MsgRoomProp (pb.MsgRoomPropPayload plus sender and
sequence number). -/
structure MsgRoomPropData where
  sender : String
  msgSeq : Nat
  visible : Bool
  joinable : Bool
  watchable : Bool
  searchGroup : Nat
  maxPlayer : Nat
  clientDeadline : Nat
  publicProps : Dict
  privateProps : Dict
  eventPayload : List Nat
  payload : List Nat
deriving Repr, DecidableEq

/-- Messages dispatched by the room actor.  Client-initiated messages
carry the sender id and whether the sending client is a player. -/
inductive Msg where
  | create (masterId : String) (props : Dict)
  | join (sender : String) (props : Dict)
  | watch (sender : String) (nodeCount : Nat)
  | ping (sender : String) (isPlayer : Bool) (timestamp : Nat)
  | nodeCount (sender : String) (count : Nat)
  | leave (sender : String) (isPlayer : Bool) (message : String)
  | roomProp (p : MsgRoomPropData)
  | clientProp (sender : String) (isPlayer : Bool) (msgSeq : Nat) (props : Dict)
      (payload : List Nat)
  | targets (sender : String) (isPlayer : Bool) (msgSeq : Nat) (tgts : List String)
      (data : List Nat) (payload : List Nat)
  | toMaster (sender : String) (isPlayer : Bool) (data : List Nat)
  | broadcast (sender : String) (isPlayer : Bool) (data : List Nat)
  | switchMaster (sender : String) (msgSeq : Nat) (target : String) (payload : List Nat)
  | kick (sender : String) (msgSeq : Nat) (target : String) (message : String)
      (payload : List Nat)
  | adminKick (target : String)
  | getRoomInfo
  | clientError (sender : String) (isPlayer : Bool) (errMsg : String)
  | clientTimeout (sender : String) (isPlayer : Bool)
deriving Repr, DecidableEq

/-- SenderID of a message, as used by the MsgLoop to refresh lastMsg
(control-plane messages have no sending client). -/
def Msg.senderID : Msg → String
  | .create mid _ => mid
  | .join s _ => s
  | .watch s _ => s
  | .ping s _ _ => s
  | .nodeCount s _ => s
  | .leave s _ _ => s
  | .roomProp p => p.sender
  | .clientProp s _ _ _ _ => s
  | .targets s _ _ _ _ _ => s
  | .toMaster s _ _ => s
  | .broadcast s _ _ => s
  | .switchMaster s _ _ _ => s
  | .kick s _ _ _ _ => s
  | .adminKick _ => ""
  | .getRoomInfo => ""
  | .clientError s _ _ => s
  | .clientTimeout s _ => s

/-- The room state owned by the actor goroutine. -/
structure RoomState where
  visible : Bool
  joinable : Bool
  watchable : Bool
  searchGroup : Nat
  maxPlayers : Nat
  roomInfoPlayers : Nat
  roomInfoWatchers : Nat
  deadline : Nat
  players : List (String × Dict)
  master : String
  masterOrder : List String
  watchers : List (String × Nat)
  publicProps : Dict
  privateProps : Dict
  lastMsg : List (String × Nat)
  done : Bool
deriving Repr, DecidableEq

/-- uint32 addition. -/
def u32add (a b : Nat) : Nat := (a + b) % 2 ^ 32

/-- uint32 subtraction. -/
def u32sub (a b : Nat) : Nat := (a + 2 ^ 32 - b % 2 ^ 32) % 2 ^ 32

/-- The props-merge loop shared by msgRoomProp and msgClientProp: a
value of length 0 deletes the key when it is present, any other
assignment replaces or inserts. -/
def mergeProps (props upd : Dict) : Dict :=
  upd.foldl
    (fun acc kv =>
      if (alookup kv.1 acc).isSome && kv.2.isEmpty then aerase kv.1 acc
      else ainsert kv.1 kv.2 acc)
    props

/-- writeLastMsg: record the current unix-millisecond time for a client. -/
def RoomState.writeLastMsg (r : RoomState) (cid : String) (now : Nat) : RoomState :=
  { r with lastMsg := ainsert cid now r.lastMsg }

/-- removeLastMsg: drop the entry of a client. -/
def RoomState.removeLastMsg (r : RoomState) (cid : String) : RoomState :=
  { r with lastMsg := aerase cid r.lastMsg }

/-- updateLastMsg: refresh only clients already present (so watchers
never gain an entry). -/
def RoomState.updateLastMsg (r : RoomState) (cid : String) (now : Nat) : RoomState :=
  if (alookup cid r.lastMsg).isSome then r.writeLastMsg cid now else r

/-- removePlayer: delete the player and its masterOrder entry; when no
player remains close the room and stop; otherwise elect a new master if
needed, refresh RoomInfo.Players, broadcast EvLeft and drop the lastMsg
entry. -/
def removePlayer (r : RoomState) (cid : String) (cause : String) :
    RoomState × List Output :=
  if (alookup cid r.players).isNone then
    (r, [])
  else
    let players1 := aerase cid r.players
    let morder1 := lerase cid r.masterOrder
    let r1 := { r with players := players1, masterOrder := morder1 }
    if players1.isEmpty then
      ({ r1 with done := true }, [Output.removedClient cid cause])
    else
      let r2 := if r1.master = cid then { r1 with master := morder1.headD "" } else r1
      let r3 := { r2 with roomInfoPlayers := players1.length }
      (r3.removeLastMsg cid,
       [Output.removedClient cid cause, Output.updateRoomInfo,
        Output.broadcastEv (Ev.left cid r2.master)])

/-- removeWatcher: delete the watcher and subtract its nodeCount from
RoomInfo.Watchers. -/
def removeWatcher (r : RoomState) (cid : String) (cause : String) :
    RoomState × List Output :=
  match alookup cid r.watchers with
  | none => (r, [])
  | some nc =>
    ({ r with watchers := aerase cid r.watchers,
              roomInfoWatchers := u32sub r.roomInfoWatchers nc },
     [Output.updateRoomInfo, Output.removedClient cid cause])

/-- removeClient: dispatch on the player flag. -/
def removeClient (r : RoomState) (cid : String) (isPlayer : Bool) (cause : String) :
    RoomState × List Output :=
  if isPlayer then removePlayer r cid cause else removeWatcher r cid cause

/-- msgCreate: install the master as the first player, append it to
masterOrder, reply JoinedInfo, broadcast EvJoined, record lastMsg. -/
def msgCreate (r : RoomState) (masterId : String) (props : Dict) (now : Nat) :
    RoomState × List Output :=
  let r1 := { r with master := masterId,
                     players := ainsert masterId props r.players,
                     masterOrder := r.masterOrder ++ [masterId] }
  (r1.writeLastMsg masterId now,
   [Output.joinedReply masterId masterId,
    Output.broadcastEv (Ev.joined masterId props)])

/-- msgJoin: reject when not joinable, when the sender watches, or when
the room is full and this is not a rejoin; a rejoin replaces the old
client in place (masterOrder untouched), a fresh join appends to
masterOrder and refreshes RoomInfo.Players; then reply, broadcast
EvRejoined or EvJoined, and record lastMsg. -/
def msgJoin (r : RoomState) (sender : String) (props : Dict) (now : Nat) :
    RoomState × List Output :=
  if !r.joinable then
    (r, [Output.errReply ErrCode.failedPrecondition])
  else
    let rejoin := (alookup sender r.players).isSome
    if (alookup sender r.watchers).isSome then
      (r, [Output.errReply ErrCode.alreadyExists])
    else if !rejoin && r.maxPlayers ≤ r.players.length then
      (r, [Output.errReply ErrCode.resourceExhausted])
    else
      let r1 := { r with players := ainsert sender props r.players }
      if rejoin then
        (r1.writeLastMsg sender now,
         [Output.removedClient sender "client rejoined as a new client",
          Output.joinedReply sender r1.master,
          Output.broadcastEv (Ev.rejoined sender props)])
      else
        let r2 := { r1 with masterOrder := r1.masterOrder ++ [sender],
                            roomInfoPlayers := r1.players.length }
        (r2.writeLastMsg sender now,
         [Output.updateRoomInfo,
          Output.joinedReply sender r2.master,
          Output.broadcastEv (Ev.joined sender props)])

/-- msgWatch: reject when not watchable or the sender plays; a
rejoining watcher replaces the old one (its nodeCount subtracted), then
RoomInfo.Watchers grows by the new nodeCount. -/
def msgWatch (r : RoomState) (sender : String) (nodeCount : Nat) :
    RoomState × List Output :=
  if !r.watchable then
    (r, [Output.errReply ErrCode.failedPrecondition])
  else if (alookup sender r.players).isSome then
    (r, [Output.errReply ErrCode.alreadyExists])
  else
    match alookup sender r.watchers with
    | some oldnc =>
      let r1 := { r with watchers := ainsert sender nodeCount r.watchers,
                         roomInfoWatchers :=
                           u32add (u32sub r.roomInfoWatchers oldnc) nodeCount }
      (r1, [Output.removedClient sender "client rejoined as a new client",
            Output.updateRoomInfo, Output.joinedReply sender r1.master])
    | none =>
      let r1 := { r with watchers := ainsert sender nodeCount r.watchers,
                         roomInfoWatchers := u32add r.roomInfoWatchers nodeCount }
      (r1, [Output.updateRoomInfo, Output.joinedReply sender r1.master])

/-- msgPing: answer the sender only, with EvPong carrying the watcher
count and the lastMsg dict. -/
def msgPing (r : RoomState) (sender : String) (isPlayer : Bool) (timestamp : Nat) :
    RoomState × List Output :=
  if isPlayer then
    if (alookup sender r.players).isNone then (r, [])
    else (r, [Output.sendSystem sender (SysEv.pong timestamp r.roomInfoWatchers r.lastMsg)])
  else
    if (alookup sender r.watchers).isNone then (r, [])
    else (r, [Output.sendSystem sender (SysEv.pong timestamp r.roomInfoWatchers r.lastMsg)])

/-- msgNodeCount: adjust RoomInfo.Watchers by the delta of the
watcher's downstream count. -/
def msgNodeCount (r : RoomState) (sender : String) (count : Nat) :
    RoomState × List Output :=
  match alookup sender r.watchers with
  | none => (r, [])
  | some nc =>
    if nc = count then (r, [])
    else
      ({ r with roomInfoWatchers := u32add (u32sub r.roomInfoWatchers nc) count,
                watchers := ainsert sender count r.watchers },
       [Output.updateRoomInfo])

/-- msgLeave: remove the sender. -/
def msgLeave (r : RoomState) (sender : String) (isPlayer : Bool) (message : String) :
    RoomState × List Output :=
  removeClient r sender isPlayer message

/-- msgRoomProp: non-master senders get EvPermissionDenied echoing the
message; the master updates flags, searchGroup, maxPlayers, merges the
props dicts, notifies the RoomInfo publisher, pushes a changed deadline
to every player, replies EvSucceeded and broadcasts EvRoomProp. -/
def msgRoomProp (r : RoomState) (m : MsgRoomPropData) : RoomState × List Output :=
  if m.sender ≠ r.master then
    (r, [Output.sendTo m.sender (Ev.permissionDenied m.msgSeq m.payload)])
  else
    let r1 := { r with visible := m.visible, joinable := m.joinable,
                       watchable := m.watchable, searchGroup := m.searchGroup,
                       maxPlayers := m.maxPlayer }
    let r2 := { r1 with publicProps := mergeProps r1.publicProps m.publicProps,
                        privateProps := mergeProps r1.privateProps m.privateProps }
    let deadlineChanged := m.clientDeadline ≠ 0 && m.clientDeadline ≠ r2.deadline
    let r3 := if deadlineChanged then { r2 with deadline := m.clientDeadline } else r2
    (r3,
     [Output.updateRoomInfo] ++
     (if deadlineChanged then
        (akeys r2.players).map (fun cid => Output.newDeadline cid m.clientDeadline)
      else []) ++
     [Output.sendTo m.sender (Ev.succeeded m.msgSeq),
      Output.broadcastEv (Ev.roomPropEv m.eventPayload)])

/-- msgClientProp: non-players get EvPermissionDenied; a stale sender
is ignored; otherwise the sender's props are merged, EvSucceeded is
sent back and EvClientProp broadcast. -/
def msgClientProp (r : RoomState) (sender : String) (isPlayer : Bool) (msgSeq : Nat)
    (props : Dict) (payload : List Nat) : RoomState × List Output :=
  if !isPlayer then
    (r, [Output.sendTo sender (Ev.permissionDenied msgSeq payload)])
  else
    match alookup sender r.players with
    | none => (r, [])
    | some cprops =>
      let r1 := { r with players := ainsert sender (mergeProps cprops props) r.players }
      (r1, [Output.sendTo sender (Ev.succeeded msgSeq),
            Output.broadcastEv (Ev.clientProp sender payload)])

/-- msgTargets: EvMessage to each target found among the players,
EvTargetNotFound to the sender when any target is absent. -/
def msgTargets (r : RoomState) (sender : String) (isPlayer : Bool) (msgSeq : Nat)
    (tgts : List String) (data : List Nat) (payload : List Nat) :
    RoomState × List Output :=
  if isPlayer && (alookup sender r.players).isNone then (r, [])
  else if !isPlayer && (alookup sender r.watchers).isNone then (r, [])
  else
    let sends := tgts.filterMap (fun t =>
      if (alookup t r.players).isSome then some (Output.sendTo t (Ev.message sender data))
      else none)
    let absent := tgts.filter (fun t => (alookup t r.players).isNone)
    (r, sends ++
        (if absent.isEmpty then []
         else [Output.sendTo sender (Ev.targetNotFound msgSeq absent payload)]))

/-- msgToMaster: EvMessage to the current master. -/
def msgToMaster (r : RoomState) (sender : String) (isPlayer : Bool) (data : List Nat) :
    RoomState × List Output :=
  if isPlayer && (alookup sender r.players).isNone then (r, [])
  else if !isPlayer && (alookup sender r.watchers).isNone then (r, [])
  else (r, [Output.sendTo r.master (Ev.message sender data)])

/-- msgBroadcast: EvMessage to all players and watchers. -/
def msgBroadcast (r : RoomState) (sender : String) (isPlayer : Bool) (data : List Nat) :
    RoomState × List Output :=
  if isPlayer && (alookup sender r.players).isNone then (r, [])
  else if !isPlayer && (alookup sender r.watchers).isNone then (r, [])
  else (r, [Output.broadcastEv (Ev.message sender data)])

/-- msgSwitchMaster, exactly as the source: a non-master sender is sent
EvPermissionDenied but the handler does not return there; an absent
target yields EvTargetNotFound; otherwise the master becomes the
target, EvSucceeded is sent to the sender and EvMasterSwitched is
broadcast. -/
def msgSwitchMaster (r : RoomState) (sender : String) (msgSeq : Nat) (target : String)
    (payload : List Nat) : RoomState × List Output :=
  let denied :=
    if sender ≠ r.master then
      [Output.sendTo sender (Ev.permissionDenied msgSeq payload)]
    else []
  if (alookup target r.players).isNone then
    (r, denied ++ [Output.sendTo sender (Ev.targetNotFound msgSeq [target] payload)])
  else
    ({ r with master := target },
     denied ++ [Output.sendTo sender (Ev.succeeded msgSeq),
                Output.broadcastEv (Ev.masterSwitched target)])

/-- msgKick: master-only; an absent target yields EvTargetNotFound;
otherwise EvSucceeded then removal of the target. -/
def msgKick (r : RoomState) (sender : String) (msgSeq : Nat) (target : String)
    (message : String) (payload : List Nat) : RoomState × List Output :=
  if sender ≠ r.master then
    (r, [Output.sendTo sender (Ev.permissionDenied msgSeq payload)])
  else if (alookup target r.players).isNone then
    (r, [Output.sendTo sender (Ev.targetNotFound msgSeq [target] payload)])
  else
    let rr := removeClient r target true message
    (rr.1, Output.sendTo sender (Ev.succeeded msgSeq) :: rr.2)

/-- msgAdminKick: remove the target player if present, reply whether it
was found. -/
def msgAdminKick (r : RoomState) (target : String) : RoomState × List Output :=
  if (alookup target r.players).isNone then
    (r, [Output.adminKickReply false])
  else
    let rr := removeClient r target true "kicked by admin"
    (rr.1, rr.2 ++ [Output.adminKickReply true])

/-- msgGetRoomInfo: reply a snapshot (only the master id is relevant
here). -/
def msgGetRoomInfo (r : RoomState) : RoomState × List Output :=
  (r, [Output.getRoomInfoReply r.master])

/-- msgClientError: remove the sender. -/
def msgClientError (r : RoomState) (sender : String) (isPlayer : Bool) (errMsg : String) :
    RoomState × List Output :=
  removeClient r sender isPlayer errMsg

/-- msgClientTimeout: remove the sender. -/
def msgClientTimeout (r : RoomState) (sender : String) (isPlayer : Bool) :
    RoomState × List Output :=
  removeClient r sender isPlayer "timeout"

/-- dispatch: route one message to its handler. -/
def dispatch (r : RoomState) (m : Msg) (now : Nat) : RoomState × List Output :=
  match m with
  | .create mid props => msgCreate r mid props now
  | .join s props => msgJoin r s props now
  | .watch s nc => msgWatch r s nc
  | .ping s ip ts => msgPing r s ip ts
  | .nodeCount s c => msgNodeCount r s c
  | .leave s ip msg => msgLeave r s ip msg
  | .roomProp p => msgRoomProp r p
  | .clientProp s ip seq props payload => msgClientProp r s ip seq props payload
  | .targets s ip seq tgts data payload => msgTargets r s ip seq tgts data payload
  | .toMaster s ip data => msgToMaster r s ip data
  | .broadcast s ip data => msgBroadcast r s ip data
  | .switchMaster s seq t payload => msgSwitchMaster r s seq t payload
  | .kick s seq t msg payload => msgKick r s seq t msg payload
  | .adminKick t => msgAdminKick r t
  | .getRoomInfo => msgGetRoomInfo r
  | .clientError s ip e => msgClientError r s ip e
  | .clientTimeout s ip => msgClientTimeout r s ip

/-- One MsgLoop iteration: refresh the sender's lastMsg entry, then
dispatch. -/
def step (r : RoomState) (m : Msg) (now : Nat) : RoomState × List Output :=
  dispatch (r.updateLastMsg m.senderID now) m now

/-! ## Field preservation of the lastMsg refresh -/

theorem updateLastMsg_visible (r : RoomState) (cid : String) (now : Nat) :
    (r.updateLastMsg cid now).visible = r.visible := by
  unfold RoomState.updateLastMsg RoomState.writeLastMsg; split <;> rfl

theorem updateLastMsg_joinable (r : RoomState) (cid : String) (now : Nat) :
    (r.updateLastMsg cid now).joinable = r.joinable := by
  unfold RoomState.updateLastMsg RoomState.writeLastMsg; split <;> rfl

theorem updateLastMsg_watchable (r : RoomState) (cid : String) (now : Nat) :
    (r.updateLastMsg cid now).watchable = r.watchable := by
  unfold RoomState.updateLastMsg RoomState.writeLastMsg; split <;> rfl

theorem updateLastMsg_searchGroup (r : RoomState) (cid : String) (now : Nat) :
    (r.updateLastMsg cid now).searchGroup = r.searchGroup := by
  unfold RoomState.updateLastMsg RoomState.writeLastMsg; split <;> rfl

theorem updateLastMsg_maxPlayers (r : RoomState) (cid : String) (now : Nat) :
    (r.updateLastMsg cid now).maxPlayers = r.maxPlayers := by
  unfold RoomState.updateLastMsg RoomState.writeLastMsg; split <;> rfl

theorem updateLastMsg_roomInfoPlayers (r : RoomState) (cid : String) (now : Nat) :
    (r.updateLastMsg cid now).roomInfoPlayers = r.roomInfoPlayers := by
  unfold RoomState.updateLastMsg RoomState.writeLastMsg; split <;> rfl

theorem updateLastMsg_roomInfoWatchers (r : RoomState) (cid : String) (now : Nat) :
    (r.updateLastMsg cid now).roomInfoWatchers = r.roomInfoWatchers := by
  unfold RoomState.updateLastMsg RoomState.writeLastMsg; split <;> rfl

theorem updateLastMsg_deadline (r : RoomState) (cid : String) (now : Nat) :
    (r.updateLastMsg cid now).deadline = r.deadline := by
  unfold RoomState.updateLastMsg RoomState.writeLastMsg; split <;> rfl

theorem updateLastMsg_players (r : RoomState) (cid : String) (now : Nat) :
    (r.updateLastMsg cid now).players = r.players := by
  unfold RoomState.updateLastMsg RoomState.writeLastMsg; split <;> rfl

theorem updateLastMsg_master (r : RoomState) (cid : String) (now : Nat) :
    (r.updateLastMsg cid now).master = r.master := by
  unfold RoomState.updateLastMsg RoomState.writeLastMsg; split <;> rfl

theorem updateLastMsg_masterOrder (r : RoomState) (cid : String) (now : Nat) :
    (r.updateLastMsg cid now).masterOrder = r.masterOrder := by
  unfold RoomState.updateLastMsg RoomState.writeLastMsg; split <;> rfl

theorem updateLastMsg_watchers (r : RoomState) (cid : String) (now : Nat) :
    (r.updateLastMsg cid now).watchers = r.watchers := by
  unfold RoomState.updateLastMsg RoomState.writeLastMsg; split <;> rfl

theorem updateLastMsg_publicProps (r : RoomState) (cid : String) (now : Nat) :
    (r.updateLastMsg cid now).publicProps = r.publicProps := by
  unfold RoomState.updateLastMsg RoomState.writeLastMsg; split <;> rfl

theorem updateLastMsg_privateProps (r : RoomState) (cid : String) (now : Nat) :
    (r.updateLastMsg cid now).privateProps = r.privateProps := by
  unfold RoomState.updateLastMsg RoomState.writeLastMsg; split <;> rfl

theorem updateLastMsg_done (r : RoomState) (cid : String) (now : Nat) :
    (r.updateLastMsg cid now).done = r.done := by
  unfold RoomState.updateLastMsg RoomState.writeLastMsg; split <;> rfl

theorem akeys_updateLastMsg (r : RoomState) (cid : String) (now : Nat) :
    akeys (r.updateLastMsg cid now).lastMsg = akeys r.lastMsg := by
  unfold RoomState.updateLastMsg RoomState.writeLastMsg
  split
  · next h => exact akeys_ainsert_present cid now r.lastMsg h
  · rfl

/-! ## C1: SwitchMaster permission check -/

/-- A two-player room with master M, used to evaluate msgSwitchMaster. -/
def switchRoom : RoomState :=
  { visible := true, joinable := true, watchable := true, searchGroup := 1,
    maxPlayers := 10, roomInfoPlayers := 2, roomInfoWatchers := 0, deadline := 30,
    players := [("M", []), ("A", [])], master := "M", masterOrder := ["M", "A"],
    watchers := [], publicProps := [], privateProps := [],
    lastMsg := [("M", 1), ("A", 1)], done := false }

/-- C1: evaluating msgSwitchMaster at a non-master sender A targeting
the player A.  The handler sends EvPermissionDenied echoing the message
but does not stop: it goes on to switch the master to the target, send
EvSucceeded and broadcast EvMasterSwitched, because the non-master
branch of msgSwitchMaster lacks the return that msgRoomProp and msgKick
have. -/
theorem switchMaster_nonmaster_switches_anyway :
    (msgSwitchMaster switchRoom "A" 7 "A" [1, 2]).1.master = "A" ∧
    (msgSwitchMaster switchRoom "A" 7 "A" [1, 2]).2 =
      [Output.sendTo "A" (Ev.permissionDenied 7 [1, 2]),
       Output.sendTo "A" (Ev.succeeded 7),
       Output.broadcastEv (Ev.masterSwitched "A")] := by
  constructor <;> decide

/-! ## C7: non-master RoomProp is denied without effect -/

/-- C7: a MsgRoomProp step from a sender who is not the master only
sends EvPermissionDenied with that message's sequence number and
payload back to the sender; nothing is broadcast and the room's flags,
searchGroup, maxPlayers, deadline, props and membership are unchanged. -/
theorem roomProp_nonmaster_denied (r : RoomState) (m : MsgRoomPropData) (now : Nat)
    (h : m.sender ≠ r.master) :
    (step r (Msg.roomProp m) now).2 =
      [Output.sendTo m.sender (Ev.permissionDenied m.msgSeq m.payload)] ∧
    (step r (Msg.roomProp m) now).1.visible = r.visible ∧
    (step r (Msg.roomProp m) now).1.joinable = r.joinable ∧
    (step r (Msg.roomProp m) now).1.watchable = r.watchable ∧
    (step r (Msg.roomProp m) now).1.searchGroup = r.searchGroup ∧
    (step r (Msg.roomProp m) now).1.maxPlayers = r.maxPlayers ∧
    (step r (Msg.roomProp m) now).1.deadline = r.deadline ∧
    (step r (Msg.roomProp m) now).1.publicProps = r.publicProps ∧
    (step r (Msg.roomProp m) now).1.privateProps = r.privateProps ∧
    (step r (Msg.roomProp m) now).1.players = r.players ∧
    (step r (Msg.roomProp m) now).1.master = r.master := by
  have hstep0 : step r (Msg.roomProp m) now =
      msgRoomProp (r.updateLastMsg m.sender now) m := rfl
  have hstep : step r (Msg.roomProp m) now =
      (r.updateLastMsg m.sender now,
       [Output.sendTo m.sender (Ev.permissionDenied m.msgSeq m.payload)]) := by
    rw [hstep0]
    unfold msgRoomProp
    rw [updateLastMsg_master, if_pos h]
  rw [hstep]
  exact ⟨rfl, updateLastMsg_visible r m.sender now, updateLastMsg_joinable r m.sender now,
    updateLastMsg_watchable r m.sender now, updateLastMsg_searchGroup r m.sender now,
    updateLastMsg_maxPlayers r m.sender now, updateLastMsg_deadline r m.sender now,
    updateLastMsg_publicProps r m.sender now, updateLastMsg_privateProps r m.sender now,
    updateLastMsg_players r m.sender now, updateLastMsg_master r m.sender now⟩

/-- Witness for C7: a concrete non-master RoomProp step. -/
theorem roomProp_nonmaster_denied_witness :
    (step switchRoom
        (Msg.roomProp
          { sender := "A", msgSeq := 9, visible := true, joinable := true,
            watchable := true, searchGroup := 1, maxPlayer := 10, clientDeadline := 0,
            publicProps := [], privateProps := [], eventPayload := [], payload := [5] })
        2).2 =
      [Output.sendTo "A" (Ev.permissionDenied 9 [5])] ∧
    (step switchRoom
        (Msg.roomProp
          { sender := "A", msgSeq := 9, visible := true, joinable := true,
            watchable := true, searchGroup := 1, maxPlayer := 10, clientDeadline := 0,
            publicProps := [], privateProps := [], eventPayload := [], payload := [5] })
        2).1.maxPlayers = switchRoom.maxPlayers := by
  have h := roomProp_nonmaster_denied switchRoom
    { sender := "A", msgSeq := 9, visible := true, joinable := true,
      watchable := true, searchGroup := 1, maxPlayer := 10, clientDeadline := 0,
      publicProps := [], privateProps := [], eventPayload := [], payload := [5] }
    2 (by decide)
  exact ⟨h.1, h.2.2.2.2.2.1⟩

/-! ## C10: removing the last player closes the room immediately -/

/-- C10: when removePlayer removes the last remaining player it only
marks the room done: the lastMsg entry stays, RoomInfo.Players is not
touched, and neither updateRoomInfo nor an EvLeft broadcast happens.
When at least one player remains, all of those effects do happen. -/
theorem removePlayer_last_closes (r : RoomState) (cid : String) (cause : String)
    (hin : (alookup cid r.players).isSome) :
    ((aerase cid r.players).isEmpty = true →
      removePlayer r cid cause =
        ({ r with players := aerase cid r.players,
                  masterOrder := lerase cid r.masterOrder, done := true },
         [Output.removedClient cid cause])) ∧
    ((aerase cid r.players).isEmpty = false →
      removePlayer r cid cause =
        ({ r with players := aerase cid r.players,
                  masterOrder := lerase cid r.masterOrder,
                  master := if r.master = cid then (lerase cid r.masterOrder).headD ""
                            else r.master,
                  roomInfoPlayers := (aerase cid r.players).length,
                  lastMsg := aerase cid r.lastMsg },
         [Output.removedClient cid cause, Output.updateRoomInfo,
          Output.broadcastEv (Ev.left cid
            (if r.master = cid then (lerase cid r.masterOrder).headD ""
             else r.master))])) := by
  have hnn : ¬(alookup cid r.players).isNone := by
    simp only [Option.isNone_iff_eq_none]
    intro he
    rw [he] at hin
    exact absurd hin (by simp)
  constructor
  · intro hemp
    simp [removePlayer, hnn, hemp]
  · intro hemp
    by_cases hm : r.master = cid <;>
      simp [removePlayer, RoomState.removeLastMsg, hnn, hemp, hm]

/-- Witness for C10 at a one-player room and at a two-player room. -/
theorem removePlayer_last_closes_witness :
    (removePlayer
        { visible := true, joinable := true, watchable := true, searchGroup := 1,
          maxPlayers := 2, roomInfoPlayers := 1, roomInfoWatchers := 0, deadline := 30,
          players := [("M", [])], master := "M", masterOrder := ["M"], watchers := [],
          publicProps := [], privateProps := [], lastMsg := [("M", 5)], done := false }
        "M" "bye" =
      ({ visible := true, joinable := true, watchable := true, searchGroup := 1,
         maxPlayers := 2, roomInfoPlayers := 1, roomInfoWatchers := 0, deadline := 30,
         players := [], master := "M", masterOrder := [], watchers := [],
         publicProps := [], privateProps := [], lastMsg := [("M", 5)], done := true },
       [Output.removedClient "M" "bye"])) ∧
    (removePlayer switchRoom "M" "bye").1.lastMsg = [("A", 1)] := by
  constructor
  · have h := (removePlayer_last_closes
      { visible := true, joinable := true, watchable := true, searchGroup := 1,
        maxPlayers := 2, roomInfoPlayers := 1, roomInfoWatchers := 0, deadline := 30,
        players := [("M", [])], master := "M", masterOrder := ["M"], watchers := [],
        publicProps := [], privateProps := [], lastMsg := [("M", 5)], done := false }
      "M" "bye" (by decide)).1 (by decide)
    rw [h]; decide
  · have h := (removePlayer_last_closes switchRoom "M" "bye" (by decide)).2 (by decide)
    rw [h]; decide

/-! ## C5: master election order -/

theorem lerase_sublist (k : String) (l : List String) : (lerase k l).Sublist l := by
  induction l with
  | nil => simp [lerase]
  | cons x rest ih =>
    by_cases h : x = k
    · simp [lerase, h]
    · simpa [lerase, h] using ih.cons₂ x

/-- C5: when a player is removed while others remain, the masterOrder
entry of the leaving player is filtered out (preserving the order of
the rest), and if the leaver was master the new master is the head of
the filtered masterOrder, the oldest remaining entry; msgCreate appends
the master to masterOrder; an accepted fresh join appends the sender,
while a rejoin leaves masterOrder untouched. -/
theorem masterOrder_election :
    (∀ (r : RoomState) (cid cause : String),
      (alookup cid r.players).isSome → (aerase cid r.players).isEmpty = false →
      (removePlayer r cid cause).1.masterOrder = lerase cid r.masterOrder ∧
      (lerase cid r.masterOrder).Sublist r.masterOrder ∧
      (r.master = cid →
        (removePlayer r cid cause).1.master = (lerase cid r.masterOrder).headD "")) ∧
    (∀ (r : RoomState) (mid : String) (props : Dict) (now : Nat),
      (msgCreate r mid props now).1.masterOrder = r.masterOrder ++ [mid]) ∧
    (∀ (r : RoomState) (sender : String) (props : Dict) (now : Nat),
      r.joinable = true → (alookup sender r.players).isSome →
      (alookup sender r.watchers).isNone →
      (msgJoin r sender props now).1.masterOrder = r.masterOrder) ∧
    (∀ (r : RoomState) (sender : String) (props : Dict) (now : Nat),
      r.joinable = true → (alookup sender r.players).isNone →
      (alookup sender r.watchers).isNone → r.players.length < r.maxPlayers →
      (msgJoin r sender props now).1.masterOrder = r.masterOrder ++ [sender]) := by
  refine ⟨?_, ?_, ?_, ?_⟩
  · intro r cid cause hin hemp
    have hnn : ¬(alookup cid r.players).isNone := by
      simp only [Option.isNone_iff_eq_none]
      intro he
      rw [he] at hin
      exact absurd hin (by simp)
    refine ⟨?_, lerase_sublist cid r.masterOrder, ?_⟩
    · by_cases hm : r.master = cid <;>
        simp [removePlayer, RoomState.removeLastMsg, hnn, hemp, hm]
    · intro hm
      simp [removePlayer, RoomState.removeLastMsg, hnn, hemp, hm]
  · intro r mid props now
    simp [msgCreate, RoomState.writeLastMsg]
  · intro r sender props now hj hp hw
    have hwn : ¬(alookup sender r.watchers).isSome = true := by
      simp only [Option.isNone_iff_eq_none] at hw
      simp [hw]
    simp [msgJoin, RoomState.writeLastMsg, hj, hp, hwn]
  · intro r sender props now hj hp hw hlen
    have hpn : ¬(alookup sender r.players).isSome = true := by
      simp only [Option.isNone_iff_eq_none] at hp
      simp [hp]
    have hwn : ¬(alookup sender r.watchers).isSome = true := by
      simp only [Option.isNone_iff_eq_none] at hw
      simp [hw]
    have hfull : ¬(r.maxPlayers ≤ r.players.length) := by omega
    simp [msgJoin, RoomState.writeLastMsg, hj, hpn, hwn, hfull]

/-- Witness for C5: the two-player room with master M; M leaves and A,
the oldest remaining entry of masterOrder, becomes master; create and
join append to masterOrder and a rejoin does not. -/
theorem masterOrder_election_witness :
    (removePlayer switchRoom "M" "bye").1.master = "A" ∧
    (removePlayer switchRoom "M" "bye").1.masterOrder = ["A"] ∧
    (msgCreate switchRoom "C" [] 3).1.masterOrder = ["M", "A", "C"] ∧
    (msgJoin switchRoom "A" [] 3).1.masterOrder = ["M", "A"] ∧
    (msgJoin switchRoom "B" [] 3).1.masterOrder = ["M", "A", "B"] := by
  have h1 := (masterOrder_election.1 switchRoom "M" "bye" (by decide) (by decide))
  have h2 := masterOrder_election.2.1 switchRoom "C" [] 3
  have h3 := masterOrder_election.2.2.1 switchRoom "A" [] 3 (by decide) (by decide) (by decide)
  have h4 := masterOrder_election.2.2.2 switchRoom "B" [] 3 (by decide) (by decide)
    (by decide) (by decide)
  refine ⟨?_, ?_, ?_, ?_, ?_⟩
  · rw [h1.2.2 (by decide)]; decide
  · rw [h1.1]; decide
  · rw [h2]; decide
  · rw [h3]; decide
  · rw [h4]; decide

/-! ## C6: property merge semantics -/

theorem mergeProps_alookup_not_mem (upd : Dict) :
    ∀ (acc : Dict) (k : String), k ∉ akeys upd →
      alookup k (mergeProps acc upd) = alookup k acc := by
  induction upd with
  | nil => intro acc k _; rfl
  | cons kv rest ih =>
    intro acc k hk
    obtain ⟨k1, v1⟩ := kv
    simp only [akeys, List.map_cons, List.mem_cons] at hk
    push_neg at hk
    have hstep : mergeProps acc ((k1, v1) :: rest) =
        mergeProps (if (alookup k1 acc).isSome && v1.isEmpty then aerase k1 acc
                    else ainsert k1 v1 acc) rest := rfl
    rw [hstep, ih _ k (by simpa [akeys] using hk.2)]
    by_cases hc : (alookup k1 acc).isSome && v1.isEmpty
    · rw [if_pos hc]
      exact alookup_aerase_ne k k1 acc hk.1
    · rw [if_neg hc]
      exact alookup_ainsert_ne k k1 v1 acc hk.1

theorem nodup_akeys_mergeProps (upd : Dict) :
    ∀ acc : Dict, (akeys acc).Nodup → (akeys (mergeProps acc upd)).Nodup := by
  induction upd with
  | nil => intro acc h; exact h
  | cons kv rest ih =>
    intro acc h
    obtain ⟨k1, v1⟩ := kv
    have hstep : mergeProps acc ((k1, v1) :: rest) =
        mergeProps (if (alookup k1 acc).isSome && v1.isEmpty then aerase k1 acc
                    else ainsert k1 v1 acc) rest := rfl
    rw [hstep]
    apply ih
    by_cases hc : (alookup k1 acc).isSome && v1.isEmpty
    · rw [if_pos hc]; exact nodup_akeys_aerase k1 acc h
    · rw [if_neg hc]; exact nodup_akeys_ainsert k1 v1 acc h

theorem mergeProps_alookup (upd : Dict) :
    ∀ (acc : Dict) (k : String) (v : List Nat),
      (akeys acc).Nodup → (akeys upd).Nodup → (k, v) ∈ upd →
      alookup k (mergeProps acc upd) =
        (if (alookup k acc).isSome ∧ v = [] then none else some v) := by
  induction upd with
  | nil => intro acc k v _ _ hm; simp at hm
  | cons kv rest ih =>
    intro acc k v hacc hupd hm
    obtain ⟨k1, v1⟩ := kv
    simp only [akeys, List.map_cons, List.nodup_cons] at hupd
    have hstep : mergeProps acc ((k1, v1) :: rest) =
        mergeProps (if (alookup k1 acc).isSome && v1.isEmpty then aerase k1 acc
                    else ainsert k1 v1 acc) rest := rfl
    rcases List.mem_cons.1 hm with hhd | htl
    · injection hhd with hk hv
      subst hk
      subst hv
      rw [hstep, mergeProps_alookup_not_mem rest _ k (by simpa [akeys] using hupd.1)]
      by_cases hc : (alookup k acc).isSome && v.isEmpty
      · rw [if_pos hc]
        simp only [Bool.and_eq_true, List.isEmpty_iff] at hc
        rw [if_pos ⟨hc.1, hc.2⟩]
        exact alookup_aerase_self k acc hacc
      · rw [if_neg hc]
        simp only [Bool.and_eq_true, List.isEmpty_iff] at hc
        rw [if_neg hc]
        exact alookup_ainsert_self k v acc
    · have hkne : k ≠ k1 := by
        intro he
        apply hupd.1
        subst he
        exact List.mem_map_of_mem Prod.fst htl
      rw [hstep]
      have hacc2 : (akeys (if (alookup k1 acc).isSome && v1.isEmpty then aerase k1 acc
          else ainsert k1 v1 acc)).Nodup := by
        by_cases hc : (alookup k1 acc).isSome && v1.isEmpty
        · rw [if_pos hc]; exact nodup_akeys_aerase k1 acc hacc
        · rw [if_neg hc]; exact nodup_akeys_ainsert k1 v1 acc hacc
      have hlk : alookup k (if (alookup k1 acc).isSome && v1.isEmpty then aerase k1 acc
          else ainsert k1 v1 acc) = alookup k acc := by
        by_cases hc : (alookup k1 acc).isSome && v1.isEmpty
        · rw [if_pos hc]; exact alookup_aerase_ne k k1 acc hkne
        · rw [if_neg hc]; exact alookup_ainsert_ne k k1 v1 acc hkne
      rw [ih _ k v hacc2 hupd.2 htl, hlk]

/-- C6 counterexample: the master supplies the key a with a value of
length 0 while a is absent from the room's public props.  The claim
says a must be absent afterwards, but the handler's merge loop only
deletes keys that are already present, so a ends up mapped to the empty
value. -/
theorem roomProp_empty_value_fresh_key_kept :
    alookup "a"
      (msgRoomProp switchRoom
        { sender := "M", msgSeq := 1, visible := true, joinable := true,
          watchable := true, searchGroup := 1, maxPlayer := 10, clientDeadline := 0,
          publicProps := [("a", [])], privateProps := [], eventPayload := [],
          payload := [] }).1.publicProps = some [] ∧
    switchRoom.publicProps = [] := by
  constructor <;> decide

/-- C6 amended: for an accepted master RoomProp and a key of its public
or private props dict, a value of length 0 removes the key only when it
was already present; when absent, the key is inserted with the empty
value; any other value replaces or inserts.  msgClientProp merges the
sender's client props with the same semantics. -/
theorem props_merge_semantics :
    (∀ (r : RoomState) (m : MsgRoomPropData) (k : String) (v : List Nat),
      m.sender = r.master → (akeys r.publicProps).Nodup →
      (akeys m.publicProps).Nodup → (k, v) ∈ m.publicProps →
      alookup k (msgRoomProp r m).1.publicProps =
        (if (alookup k r.publicProps).isSome ∧ v = [] then none else some v)) ∧
    (∀ (r : RoomState) (m : MsgRoomPropData) (k : String) (v : List Nat),
      m.sender = r.master → (akeys r.privateProps).Nodup →
      (akeys m.privateProps).Nodup → (k, v) ∈ m.privateProps →
      alookup k (msgRoomProp r m).1.privateProps =
        (if (alookup k r.privateProps).isSome ∧ v = [] then none else some v)) ∧
    (∀ (r : RoomState) (sender : String) (msgSeq : Nat) (props : Dict)
        (payload : List Nat) (cprops : Dict) (k : String) (v : List Nat),
      alookup sender r.players = some cprops →
      (akeys cprops).Nodup → (akeys props).Nodup → (k, v) ∈ props →
      alookup sender (msgClientProp r sender true msgSeq props payload).1.players =
        some (mergeProps cprops props) ∧
      alookup k (mergeProps cprops props) =
        (if (alookup k cprops).isSome ∧ v = [] then none else some v)) := by
  have hmaster : ∀ (r : RoomState) (m : MsgRoomPropData), m.sender = r.master →
      (msgRoomProp r m).1.publicProps = mergeProps r.publicProps m.publicProps ∧
      (msgRoomProp r m).1.privateProps = mergeProps r.privateProps m.privateProps := by
    intro r m hs
    have hne : ¬(m.sender ≠ r.master) := by simp [hs]
    unfold msgRoomProp
    rw [if_neg hne]
    constructor
    · dsimp only
      split <;> rfl
    · dsimp only
      split <;> rfl
  refine ⟨?_, ?_, ?_⟩
  · intro r m k v hs hnd1 hnd2 hm
    rw [(hmaster r m hs).1]
    exact mergeProps_alookup m.publicProps r.publicProps k v hnd1 hnd2 hm
  · intro r m k v hs hnd1 hnd2 hm
    rw [(hmaster r m hs).2]
    exact mergeProps_alookup m.privateProps r.privateProps k v hnd1 hnd2 hm
  · intro r sender msgSeq props payload cprops k v hp hnd1 hnd2 hm
    constructor
    · unfold msgClientProp
      simp only [Bool.not_true, Bool.false_eq_true, if_false, hp]
      exact alookup_ainsert_self sender (mergeProps cprops props) r.players
    · exact mergeProps_alookup props cprops k v hnd1 hnd2 hm

/-- Witness for C6 amended: deletion of a present key, retention of a
fresh key with empty value, replacement, and the client-prop merge. -/
theorem props_merge_semantics_witness :
    alookup "a"
      (msgRoomProp
        { switchRoom with publicProps := [("a", [1]), ("b", [2])] }
        { sender := "M", msgSeq := 1, visible := true, joinable := true,
          watchable := true, searchGroup := 1, maxPlayer := 10, clientDeadline := 0,
          publicProps := [("a", []), ("c", [7])], privateProps := [],
          eventPayload := [], payload := [] }).1.publicProps = none ∧
    alookup "c"
      (msgRoomProp
        { switchRoom with publicProps := [("a", [1]), ("b", [2])] }
        { sender := "M", msgSeq := 1, visible := true, joinable := true,
          watchable := true, searchGroup := 1, maxPlayer := 10, clientDeadline := 0,
          publicProps := [("a", []), ("c", [7])], privateProps := [],
          eventPayload := [], payload := [] }).1.publicProps = some [7] ∧
    alookup "x" (mergeProps [("x", [3])] [("x", [])]) = none := by
  have h1 := props_merge_semantics.1
    { switchRoom with publicProps := [("a", [1]), ("b", [2])] }
    { sender := "M", msgSeq := 1, visible := true, joinable := true,
      watchable := true, searchGroup := 1, maxPlayer := 10, clientDeadline := 0,
      publicProps := [("a", []), ("c", [7])], privateProps := [],
      eventPayload := [], payload := [] }
  have h2 := props_merge_semantics.2.2
    { switchRoom with players := [("M", [("x", [3])]), ("A", [])] }
    "M" 1 [("x", [])] [] [("x", [3])] "x" []
    (by decide) (by decide) (by decide) (by decide)
  refine ⟨?_, ?_, ?_⟩
  · rw [h1 "a" [] (by decide) (by decide) (by decide) (by decide)]; decide
  · rw [h1 "c" [7] (by decide) (by decide) (by decide) (by decide)]; decide
  · rw [h2.2]; decide

/-! ## C4: the player-count bound -/

theorem removePlayer_frame (r : RoomState) (cid : String) (cause : String) :
    (removePlayer r cid cause).1.players.length ≤ r.players.length ∧
    (removePlayer r cid cause).1.maxPlayers = r.maxPlayers := by
  unfold removePlayer RoomState.removeLastMsg
  split
  · exact ⟨Nat.le_refl _, rfl⟩
  · dsimp only
    split
    · exact ⟨length_aerase_le cid r.players, rfl⟩
    · split <;> exact ⟨length_aerase_le cid r.players, rfl⟩

theorem removeWatcher_frame (r : RoomState) (cid : String) (cause : String) :
    (removeWatcher r cid cause).1.players.length ≤ r.players.length ∧
    (removeWatcher r cid cause).1.maxPlayers = r.maxPlayers := by
  unfold removeWatcher
  split <;> exact ⟨Nat.le_refl _, rfl⟩

theorem removeClient_frame (r : RoomState) (cid : String) (ip : Bool) (cause : String) :
    (removeClient r cid ip cause).1.players.length ≤ r.players.length ∧
    (removeClient r cid ip cause).1.maxPlayers = r.maxPlayers := by
  unfold removeClient
  split
  · exact removePlayer_frame r cid cause
  · exact removeWatcher_frame r cid cause

/-- The fields of msgRoomProp in the master branch that the invariants
depend on. -/
theorem msgRoomProp_master_fields (r : RoomState) (m : MsgRoomPropData)
    (hs : ¬(m.sender ≠ r.master)) :
    (msgRoomProp r m).1.players = r.players ∧
    (msgRoomProp r m).1.maxPlayers = m.maxPlayer ∧
    (msgRoomProp r m).1.lastMsg = r.lastMsg ∧
    (msgRoomProp r m).1.done = r.done := by
  unfold msgRoomProp
  rw [if_neg hs]
  dsimp only
  refine ⟨?_, ?_, ?_, ?_⟩ <;> (split <;> rfl)

theorem dispatch_players_bound (r : RoomState) (m : Msg) (now : Nat)
    (h : r.players.length ≤ r.maxPlayers)
    (hc : ∀ mid props, m = Msg.create mid props → r.players = [] ∧ 0 < r.maxPlayers) :
    (dispatch r m now).1.players.length ≤ (dispatch r m now).1.maxPlayers ∨
    ∃ p, m = Msg.roomProp p ∧ p.maxPlayer < r.players.length := by
  cases m with
  | create mid props =>
    obtain ⟨he, hpos⟩ := hc mid props rfl
    left
    show (msgCreate r mid props now).1.players.length ≤ (msgCreate r mid props now).1.maxPlayers
    unfold msgCreate RoomState.writeLastMsg
    dsimp only
    rw [he]
    simpa [ainsert] using hpos
  | join s props =>
    left
    show (msgJoin r s props now).1.players.length ≤ (msgJoin r s props now).1.maxPlayers
    unfold msgJoin RoomState.writeLastMsg
    by_cases hj : !r.joinable
    · rw [if_pos hj]; exact h
    · rw [if_neg hj]
      dsimp only
      by_cases hw : (alookup s r.watchers).isSome
      · rw [if_pos hw]; exact h
      · rw [if_neg hw]
        by_cases hrj : (alookup s r.players).isSome
        · rw [if_neg (by simp [hrj])]
          rw [if_pos hrj]
          have := length_ainsert s props r.players
          rw [if_pos hrj] at this
          dsimp only
          rw [this]
          exact h
        · by_cases hfull : r.maxPlayers ≤ r.players.length
          · rw [if_pos (by simp [hrj, hfull])]
            exact h
          · rw [if_neg (by simp [hrj, hfull])]
            rw [if_neg hrj]
            have := length_ainsert s props r.players
            rw [if_neg hrj] at this
            dsimp only
            rw [this]
            omega
  | watch s nc =>
    left
    show (msgWatch r s nc).1.players.length ≤ (msgWatch r s nc).1.maxPlayers
    unfold msgWatch
    repeat' split
    all_goals exact h
  | ping s ip ts =>
    left
    show (msgPing r s ip ts).1.players.length ≤ (msgPing r s ip ts).1.maxPlayers
    unfold msgPing
    repeat' split
    all_goals exact h
  | nodeCount s c =>
    left
    show (msgNodeCount r s c).1.players.length ≤ (msgNodeCount r s c).1.maxPlayers
    unfold msgNodeCount
    repeat' split
    all_goals exact h
  | leave s ip msg =>
    left
    have hf := removeClient_frame r s ip msg
    show (removeClient r s ip msg).1.players.length ≤ (removeClient r s ip msg).1.maxPlayers
    rw [hf.2]
    omega
  | roomProp p =>
    by_cases hs : p.sender ≠ r.master
    · left
      show (msgRoomProp r p).1.players.length ≤ (msgRoomProp r p).1.maxPlayers
      unfold msgRoomProp
      rw [if_pos hs]
      exact h
    · have hf := msgRoomProp_master_fields r p hs
      by_cases hlt : p.maxPlayer < r.players.length
      · exact Or.inr ⟨p, rfl, hlt⟩
      · left
        show (msgRoomProp r p).1.players.length ≤ (msgRoomProp r p).1.maxPlayers
        rw [hf.1, hf.2.1]
        omega
  | clientProp s ip seq props payload =>
    left
    show (msgClientProp r s ip seq props payload).1.players.length ≤
      (msgClientProp r s ip seq props payload).1.maxPlayers
    unfold msgClientProp
    by_cases hip : !ip
    · rw [if_pos hip]; exact h
    · rw [if_neg hip]
      cases hlook : alookup s r.players with
      | none => exact h
      | some cprops =>
        have := length_ainsert s (mergeProps cprops props) r.players
        rw [if_pos (by simp [hlook])] at this
        dsimp only
        rw [this]
        exact h
  | targets s ip seq tgts data payload =>
    left
    show (msgTargets r s ip seq tgts data payload).1.players.length ≤
      (msgTargets r s ip seq tgts data payload).1.maxPlayers
    unfold msgTargets
    repeat' split
    all_goals exact h
  | toMaster s ip data =>
    left
    show (msgToMaster r s ip data).1.players.length ≤ (msgToMaster r s ip data).1.maxPlayers
    unfold msgToMaster
    repeat' split
    all_goals exact h
  | broadcast s ip data =>
    left
    show (msgBroadcast r s ip data).1.players.length ≤ (msgBroadcast r s ip data).1.maxPlayers
    unfold msgBroadcast
    repeat' split
    all_goals exact h
  | switchMaster s seq t payload =>
    left
    show (msgSwitchMaster r s seq t payload).1.players.length ≤
      (msgSwitchMaster r s seq t payload).1.maxPlayers
    unfold msgSwitchMaster
    repeat' split
    all_goals exact h
  | kick s seq t msg payload =>
    left
    show (msgKick r s seq t msg payload).1.players.length ≤
      (msgKick r s seq t msg payload).1.maxPlayers
    unfold msgKick
    repeat' split
    · exact h
    · exact h
    · have hf := removeClient_frame r t true msg
      dsimp only
      rw [hf.2]
      omega
  | adminKick t =>
    left
    show (msgAdminKick r t).1.players.length ≤ (msgAdminKick r t).1.maxPlayers
    unfold msgAdminKick
    repeat' split
    · exact h
    · have hf := removeClient_frame r t true "kicked by admin"
      dsimp only
      rw [hf.2]
      omega
  | getRoomInfo =>
    left
    exact h
  | clientError s ip e =>
    left
    have hf := removeClient_frame r s ip e
    show (removeClient r s ip e).1.players.length ≤ (removeClient r s ip e).1.maxPlayers
    rw [hf.2]
    omega
  | clientTimeout s ip =>
    left
    have hf := removeClient_frame r s ip "timeout"
    show (removeClient r s ip "timeout").1.players.length ≤
      (removeClient r s ip "timeout").1.maxPlayers
    rw [hf.2]
    omega

/-- An empty freshly built room with room for two players. -/
def freshRoom : RoomState :=
  { visible := true, joinable := true, watchable := true, searchGroup := 1,
    maxPlayers := 2, roomInfoPlayers := 0, roomInfoWatchers := 0, deadline := 30,
    players := [], master := "", masterOrder := [], watchers := [],
    publicProps := [], privateProps := [], lastMsg := [], done := false }

/-- C4 counterexample: create a room with maxPlayers 2, join a second
player, then the master lowers maxPlayers to 1 via MsgRoomProp.  The
last transition is a RoomProp, not a rejoin, yet afterwards the room
holds 2 players with maxPlayers 1 - the dispatched MsgRoomProp made the
player count exceed MaxPlayers, which the claim rules out. -/
theorem roomProp_shrinks_below_player_count :
    ((step (step (step freshRoom (Msg.create "M" []) 1).1 (Msg.join "A" []) 2).1
        (Msg.roomProp
          { sender := "M", msgSeq := 3, visible := true, joinable := true,
            watchable := true, searchGroup := 1, maxPlayer := 1, clientDeadline := 0,
            publicProps := [], privateProps := [], eventPayload := [], payload := [] })
        3).1.players.length = 2) ∧
    ((step (step (step freshRoom (Msg.create "M" []) 1).1 (Msg.join "A" []) 2).1
        (Msg.roomProp
          { sender := "M", msgSeq := 3, visible := true, joinable := true,
            watchable := true, searchGroup := 1, maxPlayer := 1, clientDeadline := 0,
            publicProps := [], privateProps := [], eventPayload := [], payload := [] })
        3).1.maxPlayers = 1) := by
  constructor <;> decide

/-- C4 amended: a non-rejoin MsgJoin on a full room is rejected with
ResourceExhausted and leaves the room unchanged, and no dispatched
message makes the player count exceed MaxPlayers - except that a
MsgRoomProp from the master may set MaxPlayers below the current player
count (MsgCreate is only dispatched on the empty room with a positive
MaxPlayers). -/
theorem players_bound_preserved (r : RoomState) (m : Msg) (now : Nat)
    (h : r.players.length ≤ r.maxPlayers)
    (hc : ∀ mid props, m = Msg.create mid props → r.players = [] ∧ 0 < r.maxPlayers) :
    ((step r m now).1.players.length ≤ (step r m now).1.maxPlayers ∨
     ∃ p, m = Msg.roomProp p ∧ p.maxPlayer < r.players.length) ∧
    (∀ sender props, m = Msg.join sender props → r.joinable = true →
      (alookup sender r.players).isNone = true →
      (alookup sender r.watchers).isNone = true →
      r.maxPlayers ≤ r.players.length →
      step r m now = (r.updateLastMsg sender now,
                      [Output.errReply ErrCode.resourceExhausted])) := by
  constructor
  · have hstep : step r m now = dispatch (r.updateLastMsg m.senderID now) m now := rfl
    rw [hstep]
    have hpl := updateLastMsg_players r m.senderID now
    have hmx := updateLastMsg_maxPlayers r m.senderID now
    have hb := dispatch_players_bound (r.updateLastMsg m.senderID now) m now
      (by rw [hpl, hmx]; exact h)
      (by
        intro mid props hm
        obtain ⟨he, hpos⟩ := hc mid props hm
        rw [hpl, hmx]
        exact ⟨he, hpos⟩)
    rw [hpl] at hb
    exact hb
  · rintro sender props rfl hj hp hw hfull
    have hstep : step r (Msg.join sender props) now =
        msgJoin (r.updateLastMsg sender now) sender props now := rfl
    rw [hstep]
    unfold msgJoin
    rw [updateLastMsg_joinable, updateLastMsg_players, updateLastMsg_watchers,
        updateLastMsg_maxPlayers]
    have hps : (alookup sender r.players).isSome = false := by
      simp only [Option.isNone_iff_eq_none] at hp
      simp [hp]
    have hws : (alookup sender r.watchers).isSome = false := by
      simp only [Option.isNone_iff_eq_none] at hw
      simp [hw]
    simp [hj, hps, hws, hfull]

/-- Witness for C4 amended: a full two-player room rejects a fresh join
with ResourceExhausted and keeps the bound. -/
theorem players_bound_preserved_witness :
    (step { switchRoom with maxPlayers := 2 } (Msg.join "B" []) 5).1.players.length ≤
      (step { switchRoom with maxPlayers := 2 } (Msg.join "B" []) 5).1.maxPlayers ∧
    step { switchRoom with maxPlayers := 2 } (Msg.join "B" []) 5 =
      ({ switchRoom with maxPlayers := 2 }.updateLastMsg "B" 5,
       [Output.errReply ErrCode.resourceExhausted]) := by
  have h := players_bound_preserved { switchRoom with maxPlayers := 2 } (Msg.join "B" []) 5
    (by decide) (by intro mid props hm; cases hm)
  constructor
  · rcases h.1 with h1 | h1
    · exact h1
    · obtain ⟨p, hp, _⟩ := h1
      cases hp
  · exact h.2 "B" [] rfl (by decide) (by decide) (by decide) (by decide)

/-! ## C9: lastMsg keys against player ids -/

/-- C9 counterexample: a single-player room whose player leaves.  The
room closes (done), but removePlayer returns before removeLastMsg, so
the departed player's lastMsg entry survives while the player set is
empty - the key set of lastMsg is not a subset of the player ids after
that dispatched message. -/
theorem lastMsg_keeps_leaver_key :
    (step (step freshRoom (Msg.create "M" []) 1).1 (Msg.leave "M" true "bye") 2).1.players
      = [] ∧
    akeys (step (step freshRoom (Msg.create "M" []) 1).1
      (Msg.leave "M" true "bye") 2).1.lastMsg = ["M"] ∧
    (step (step freshRoom (Msg.create "M" []) 1).1
      (Msg.leave "M" true "bye") 2).1.done = true := by
  refine ⟨?_, ?_, ?_⟩ <;> decide

theorem removeClient_lastMsg_inv (r : RoomState) (cid : String) (ip : Bool) (cause : String)
    (h1 : (akeys r.lastMsg).Nodup)
    (h2 : ∀ x, x ∈ akeys r.lastMsg → x ∈ akeys r.players) :
    (removeClient r cid ip cause).1.done = true ∨
    ((akeys (removeClient r cid ip cause).1.lastMsg).Nodup ∧
     ∀ x, x ∈ akeys (removeClient r cid ip cause).1.lastMsg →
       x ∈ akeys (removeClient r cid ip cause).1.players) := by
  unfold removeClient
  split
  · unfold removePlayer RoomState.removeLastMsg
    split
    · exact Or.inr ⟨h1, h2⟩
    · dsimp only
      split
      · left
        rfl
      · right
        split
        all_goals
          refine ⟨nodup_akeys_aerase cid r.lastMsg h1, ?_⟩
        all_goals
          intro x hx
          have he := mem_akeys_aerase_elim x cid r.lastMsg h1 hx
          exact mem_akeys_aerase_ne x cid r.players (h2 x he.1) he.2
  · unfold removeWatcher
    split <;> exact Or.inr ⟨h1, h2⟩

theorem dispatch_lastMsg_inv (r : RoomState) (m : Msg) (now : Nat)
    (h1 : (akeys r.lastMsg).Nodup)
    (h2 : ∀ x, x ∈ akeys r.lastMsg → x ∈ akeys r.players) :
    (dispatch r m now).1.done = true ∨
    ((akeys (dispatch r m now).1.lastMsg).Nodup ∧
     ∀ x, x ∈ akeys (dispatch r m now).1.lastMsg →
       x ∈ akeys (dispatch r m now).1.players) := by
  have hins : ∀ (s : String) (props : Dict),
      ((akeys (ainsert s now r.lastMsg)).Nodup ∧
       ∀ x, x ∈ akeys (ainsert s now r.lastMsg) →
         x ∈ akeys (ainsert s props r.players)) := by
    intro s props
    refine ⟨nodup_akeys_ainsert s now r.lastMsg h1, ?_⟩
    intro x hx
    rcases (mem_akeys_ainsert_iff x s now r.lastMsg).1 hx with hxx | hxx
    · exact (mem_akeys_ainsert_iff x s props r.players).2 (Or.inl hxx)
    · exact (mem_akeys_ainsert_iff x s props r.players).2 (Or.inr (h2 x hxx))
  cases m with
  | create mid props =>
    exact Or.inr (hins mid props)
  | join s props =>
    have hd : dispatch r (Msg.join s props) now = msgJoin r s props now := rfl
    rw [hd]
    unfold msgJoin RoomState.writeLastMsg
    split
    · exact Or.inr ⟨h1, h2⟩
    · dsimp only
      split
      · exact Or.inr ⟨h1, h2⟩
      · split
        · exact Or.inr ⟨h1, h2⟩
        · right
          split
          · exact hins s props
          · exact hins s props
  | watch s nc =>
    have hd : dispatch r (Msg.watch s nc) now = msgWatch r s nc := rfl
    rw [hd]
    unfold msgWatch
    split
    · exact Or.inr ⟨h1, h2⟩
    · split
      · exact Or.inr ⟨h1, h2⟩
      · split <;> exact Or.inr ⟨h1, h2⟩
  | ping s ip ts =>
    have hd : dispatch r (Msg.ping s ip ts) now = msgPing r s ip ts := rfl
    rw [hd]
    unfold msgPing
    split <;> split <;> exact Or.inr ⟨h1, h2⟩
  | nodeCount s c =>
    have hd : dispatch r (Msg.nodeCount s c) now = msgNodeCount r s c := rfl
    rw [hd]
    unfold msgNodeCount
    split
    · exact Or.inr ⟨h1, h2⟩
    · split <;> exact Or.inr ⟨h1, h2⟩
  | leave s ip msg =>
    exact removeClient_lastMsg_inv r s ip msg h1 h2
  | roomProp p =>
    right
    by_cases hs : p.sender ≠ r.master
    · have hd : dispatch r (Msg.roomProp p) now = msgRoomProp r p := rfl
      rw [hd]
      unfold msgRoomProp
      rw [if_pos hs]
      exact ⟨h1, h2⟩
    · have hf := msgRoomProp_master_fields r p hs
      have hl : (dispatch r (Msg.roomProp p) now).1.lastMsg = r.lastMsg := hf.2.2.1
      have hp : (dispatch r (Msg.roomProp p) now).1.players = r.players := hf.1
      rw [hl, hp]
      exact ⟨h1, h2⟩
  | clientProp s ip seq props payload =>
    right
    have hd : dispatch r (Msg.clientProp s ip seq props payload) now =
        msgClientProp r s ip seq props payload := rfl
    rw [hd]
    unfold msgClientProp
    split
    · exact ⟨h1, h2⟩
    · split
      · exact ⟨h1, h2⟩
      · refine ⟨h1, ?_⟩
        intro x hx
        exact (mem_akeys_ainsert_iff x s _ r.players).2 (Or.inr (h2 x hx))
  | targets s ip seq tgts data payload =>
    right
    have hd : dispatch r (Msg.targets s ip seq tgts data payload) now =
        msgTargets r s ip seq tgts data payload := rfl
    rw [hd]
    unfold msgTargets
    split
    · exact ⟨h1, h2⟩
    · split
      · exact ⟨h1, h2⟩
      · exact ⟨h1, h2⟩
  | toMaster s ip data =>
    right
    have hd : dispatch r (Msg.toMaster s ip data) now = msgToMaster r s ip data := rfl
    rw [hd]
    unfold msgToMaster
    split
    · exact ⟨h1, h2⟩
    · split <;> exact ⟨h1, h2⟩
  | broadcast s ip data =>
    right
    have hd : dispatch r (Msg.broadcast s ip data) now = msgBroadcast r s ip data := rfl
    rw [hd]
    unfold msgBroadcast
    split
    · exact ⟨h1, h2⟩
    · split <;> exact ⟨h1, h2⟩
  | switchMaster s seq t payload =>
    right
    have hd : dispatch r (Msg.switchMaster s seq t payload) now =
        msgSwitchMaster r s seq t payload := rfl
    rw [hd]
    unfold msgSwitchMaster
    dsimp only
    split <;> exact ⟨h1, h2⟩
  | kick s seq t msg payload =>
    have hd : dispatch r (Msg.kick s seq t msg payload) now =
        msgKick r s seq t msg payload := rfl
    rw [hd]
    unfold msgKick
    split
    · exact Or.inr ⟨h1, h2⟩
    · split
      · exact Or.inr ⟨h1, h2⟩
      · dsimp only
        exact removeClient_lastMsg_inv r t true msg h1 h2
  | adminKick t =>
    have hd : dispatch r (Msg.adminKick t) now = msgAdminKick r t := rfl
    rw [hd]
    unfold msgAdminKick
    split
    · exact Or.inr ⟨h1, h2⟩
    · dsimp only
      exact removeClient_lastMsg_inv r t true "kicked by admin" h1 h2
  | getRoomInfo =>
    exact Or.inr ⟨h1, h2⟩
  | clientError s ip e =>
    exact removeClient_lastMsg_inv r s ip e h1 h2
  | clientTimeout s ip =>
    exact removeClient_lastMsg_inv r s ip "timeout" h1 h2

/-- C9 amended: while the room stays open, the key set of lastMsg (kept
duplicate-free) remains a subset of the player ids after every
dispatched message; the only escape is the step that removes the last
player, which closes the room (done) and leaves that player's stale
lastMsg entry behind. -/
theorem lastMsg_keys_subset_players (r : RoomState) (m : Msg) (now : Nat)
    (h1 : (akeys r.lastMsg).Nodup)
    (h2 : ∀ x, x ∈ akeys r.lastMsg → x ∈ akeys r.players) :
    (step r m now).1.done = true ∨
    ((akeys (step r m now).1.lastMsg).Nodup ∧
     ∀ x, x ∈ akeys (step r m now).1.lastMsg →
       x ∈ akeys (step r m now).1.players) := by
  have hstep : step r m now = dispatch (r.updateLastMsg m.senderID now) m now := rfl
  rw [hstep]
  apply dispatch_lastMsg_inv
  · rw [akeys_updateLastMsg]
    exact h1
  · intro x hx
    rw [akeys_updateLastMsg] at hx
    rw [updateLastMsg_players]
    exact h2 x hx

/-- Witness for C9 amended: in the two-player room, M leaving keeps the
invariant for the remaining player A. -/
theorem lastMsg_keys_subset_players_witness :
    (step switchRoom (Msg.leave "M" true "bye") 5).1.done = true ∨
    ((akeys (step switchRoom (Msg.leave "M" true "bye") 5).1.lastMsg).Nodup ∧
     ∀ x, x ∈ akeys (step switchRoom (Msg.leave "M" true "bye") 5).1.lastMsg →
       x ∈ akeys (step switchRoom (Msg.leave "M" true "bye") 5).1.players) :=
  lastMsg_keys_subset_players switchRoom (Msg.leave "M" true "bye") 5 (by decide)
    (by
      intro x hx
      simp only [switchRoom, akeys, List.map_cons, List.map_nil] at hx ⊢
      exact hx)

end WSNet2
